import Mathlib

/-!
Verification of the `ExtractionValidator` and bounding-box logic of the
OCR-Form-Extraction repository (app/utils/validation.py, app/utils/ocr.py),
as a shallow embedding in Lean 4.

Strings are modelled as Lean `String`s over their character lists; Python
floats are modelled as rationals; Python dicts are modelled as association
lists (the structured data produced by the LLM step has unique keys at each
level).  Functions are translated from the source; definitions whose name
ends in `Claim` or contains `claim` restate the words of the specification
and are only used to compare the code against the spec.
-/

namespace OCRFormExtraction

/-! ## Character-level string utilities

Python string primitives (`lower`, `strip`, `split`, `in`, `endswith`,
`len`) are modelled on the underlying character lists.  Python is
Unicode-aware; the model restricts attention to ASCII case mapping, which
covers every string the validator manipulates. -/

/-- leadsList ps cs is true when ps is a leading segment of cs
(model of Python startswith, used to build substring search). -/
def leadsList : List Char → List Char → Bool
  | [], _ => true
  | _ :: _, [] => false
  | a :: as, b :: bs => a == b && leadsList as bs

/-- strContains hay pat models the Python expression pat in hay
(substring containment). -/
def strContains (hay pat : String) : Bool :=
  (List.range (hay.data.length + 1)).any fun i => leadsList pat.data (hay.data.drop i)

/-- endsWithS s suf models Python s.endswith(suf). -/
def endsWithS (s suf : String) : Bool :=
  leadsList suf.data.reverse s.data.reverse

/-- lowerS models Python str.lower restricted to ASCII case mapping. -/
def lowerS (s : String) : String :=
  String.mk (s.data.map Char.toLower)

/-- trimS models Python str.strip(): drop leading and trailing whitespace. -/
def trimS (s : String) : String :=
  String.mk (((s.data.dropWhile Char.isWhitespace).reverse.dropWhile Char.isWhitespace).reverse)

/-- splitWsAux acc cs accumulates the current (reversed) token acc while
scanning cs, producing the whitespace-separated tokens. -/
def splitWsAux : List Char → List Char → List (List Char)
  | acc, [] => if acc.isEmpty then [] else [acc.reverse]
  | acc, c :: rest =>
    if c.isWhitespace then
      if acc.isEmpty then splitWsAux [] rest
      else acc.reverse :: splitWsAux [] rest
    else splitWsAux (c :: acc) rest

/-- splitWs models Python str.split() with no argument: split on runs of
whitespace, never producing empty tokens. -/
def splitWs (s : String) : List String :=
  (splitWsAux [] s.data).map String.mk

/-! ## Format validation (validation.py, validate_format)

The four registered patterns are all of the shape `^\d{lo,hi}$`; a pattern
is encoded by the pair (lo, hi) of repetition bounds. -/

/-- field_patterns models the field_patterns dict of ExtractionValidator:
idNumber `^\d{9}$`, mobilePhone `^\d{10}$`, landlinePhone `^\d{9}$`,
postalCode `^\d{5,7}$`; every other field has no pattern. -/
def field_patterns (field : String) : Option (Nat × Nat) :=
  if field = "idNumber" then some (9, 9)
  else if field = "mobilePhone" then some (10, 10)
  else if field = "landlinePhone" then some (9, 9)
  else if field = "postalCode" then some (5, 7)
  else none

/-- exactDigits lo hi cs states that the whole character list cs is a
digit string whose length lies in [lo, hi]: the anchored full-string
reading of the regex `^\d{lo,hi}$` used by the specification. -/
def exactDigits (lo hi : Nat) (cs : List Char) : Bool :=
  decide (lo ≤ cs.length) && decide (cs.length ≤ hi) && cs.all Char.isDigit

/-- dollarAt cs k models the Python regex anchor `$` at position k of cs:
it asserts either at the end of the string, or just before a newline that
is the last character. -/
def dollarAt (cs : List Char) (k : Nat) : Bool :=
  decide (k = cs.length) || (decide (k + 1 = cs.length) && cs.getLast? == some '\n')

/-- reMatchDigits lo hi cs models bool(re.match(pattern, value)) for a
pattern `^\d{lo,hi}$`: some repetition count k in [lo, hi] consumes k
leading digits and leaves `$` satisfied. -/
def reMatchDigits (lo hi : Nat) (cs : List Char) : Bool :=
  (List.range (hi + 1)).any fun k =>
    decide (lo ≤ k) && decide (k ≤ hi) && decide (k ≤ cs.length) &&
      (cs.take k).all Char.isDigit && dollarAt cs k

/-- validate_format models ExtractionValidator.validate_format: empty
values pass, fields without a registered pattern pass, otherwise the value
is matched with re.match against the registered pattern. -/
def validate_format (field value : String) : Bool :=
  if value = "" then true
  else
    match field_patterns field with
    | none => true
    | some (lo, hi) => reMatchDigits lo hi value.data

/-! ## Field-type inference (validation.py, _infer_field_type) -/

/-- kwAny terms ln models any(term in ln for term in terms). -/
def kwAny (terms : List String) (ln : String) : Bool :=
  terms.any fun t => strContains ln t

/-- infer_field_type models ExtractionValidator._infer_field_type: the
lowercased field name is tested against keyword lists in a fixed order and
the first hit decides the type. -/
def infer_field_type (field_name : String) : String :=
  let lower_name := lowerS field_name
  if kwAny ["id", "number", "num", "code"] lower_name then "numeric"
  else if kwAny ["phone", "tel", "mobile", "landline"] lower_name then "phone"
  else if kwAny ["date", "day", "month", "year"] lower_name then "date"
  else if kwAny ["name", "first", "last", "family"] lower_name then "text"
  else if kwAny ["address", "street", "city"] lower_name then "address"
  else "unknown"

end OCRFormExtraction

namespace OCRFormExtraction

/-- Python re.match semantics for an anchored digit pattern: the match
succeeds exactly on full digit strings in range, or on such a string
followed by one trailing newline (the Python `$` quirk). -/
lemma reMatchDigits_iff (lo hi : Nat) (cs : List Char) :
    reMatchDigits lo hi cs = true ↔
      (exactDigits lo hi cs = true ∨
        ∃ ds, cs = ds ++ ['\n'] ∧ exactDigits lo hi ds = true) := by
  unfold reMatchDigits exactDigits dollarAt
  simp only [List.any_eq_true, List.mem_range, Bool.and_eq_true, Bool.or_eq_true,
    decide_eq_true_eq, beq_iff_eq]
  constructor
  · rintro ⟨k, hkrange, ⟨⟨⟨hlok, hkhi⟩, hklen⟩, hdig⟩, hend | ⟨hk1, hlast⟩⟩
    · left
      subst hend
      rw [List.take_length] at hdig
      exact ⟨⟨hlok, hkhi⟩, hdig⟩
    · right
      have hlen1 : (cs.drop k).length = 1 := by
        rw [List.length_drop]; omega
      obtain ⟨c, hc⟩ := List.length_eq_one.mp hlen1
      have hsplit : cs = cs.take k ++ [c] := by
        rw [← hc, List.take_append_drop]
      have hcl : c = '\n' := by
        rw [hsplit, List.getLast?_concat] at hlast
        exact Option.some_injective _ hlast
      subst hcl
      refine ⟨cs.take k, hsplit, ⟨⟨?_, ?_⟩, hdig⟩⟩
      · rwa [List.length_take, Nat.min_eq_left hklen]
      · rwa [List.length_take, Nat.min_eq_left hklen]
  · rintro (⟨⟨hlok, hkhi⟩, hdig⟩ | ⟨ds, hds, ⟨⟨hlok, hkhi⟩, hdig⟩⟩)
    · refine ⟨cs.length, by omega, ⟨⟨⟨hlok, hkhi⟩, le_refl _⟩, ?_⟩, Or.inl rfl⟩
      rwa [List.take_length]
    · subst hds
      refine ⟨ds.length, by omega, ⟨⟨⟨hlok, hkhi⟩, ?_⟩, ?_⟩, Or.inr ⟨?_, ?_⟩⟩
      · simp
      · rwa [List.take_left]
      · simp
      · rw [List.getLast?_concat]

/-- C1 (corrected), counterexample to the claim as stated: for the
registered idNumber pattern `^\d{9}$`, the value consisting of nine digits
followed by a newline is accepted by validate_format even though the whole
value does not match the registered regex as a full digit string, because
the Python `$` anchor also matches just before a single trailing
newline. -/
theorem validate_format_whole_match_cex :
    validate_format "idNumber" "123456789\n" = true ∧
      field_patterns "idNumber" = some (9, 9) ∧
      exactDigits 9 9 ("123456789\n").data = false ∧
      "123456789\n" ≠ "" := by
  refine ⟨by decide, by decide, by decide, by decide⟩

/-- C1 (amended): validate_format accepts empty values and fields without
a registered pattern (exactly idNumber, mobilePhone, landlinePhone and
postalCode carry patterns); otherwise it accepts exactly the values that
fully match the registered digit pattern, possibly followed by one
trailing newline (Python re.match `$` semantics).  In particular
idNumber 123456789 is accepted, 12345678 is rejected, and the empty
string is accepted. -/
theorem validate_format_amended :
    (∀ f, (field_patterns f).isSome = true ↔
        (f = "idNumber" ∨ f = "mobilePhone" ∨ f = "landlinePhone" ∨ f = "postalCode")) ∧
    (∀ f v, validate_format f v = true ↔
        (v = "" ∨ field_patterns f = none ∨
          ∃ lo hi, field_patterns f = some (lo, hi) ∧
            (exactDigits lo hi v.data = true ∨
              ∃ ds, v.data = ds ++ ['\n'] ∧ exactDigits lo hi ds = true))) ∧
    validate_format "idNumber" "123456789" = true ∧
    validate_format "idNumber" "12345678" = false ∧
    validate_format "idNumber" "" = true := by
  refine ⟨fun f => ?_, fun f v => ?_, by decide, by decide, by decide⟩
  · unfold field_patterns
    by_cases h1 : f = "idNumber" <;> by_cases h2 : f = "mobilePhone" <;>
      by_cases h3 : f = "landlinePhone" <;> by_cases h4 : f = "postalCode" <;>
        simp [h1, h2, h3, h4]
  · unfold validate_format
    by_cases hv : v = ""
    · simp [hv]
    · cases hp : field_patterns f with
      | none => simp [hv, hp]
      | some p =>
        obtain ⟨lo, hi⟩ := p
        rw [if_neg hv]
        constructor
        · intro h
          replace h : reMatchDigits lo hi v.data = true := h
          rw [reMatchDigits_iff] at h
          rcases h with h | h
          · exact Or.inr (Or.inr ⟨lo, hi, rfl, Or.inl h⟩)
          · exact Or.inr (Or.inr ⟨lo, hi, rfl, Or.inr h⟩)
        · rintro (h | h | ⟨lo', hi', hph, hcase⟩)
          · exact absurd h hv
          · cases h
          · have h2 : (lo, hi) = (lo', hi') := Option.some.inj hph
            cases h2
            show reMatchDigits lo hi v.data = true
            rw [reMatchDigits_iff]
            exact hcase

/-- claimKeywordTable lists the keyword sets of the specification in
priority order together with the type each one decides. -/
def claimKeywordTable : List (List String × String) :=
  [(["id", "number", "num", "code"], "numeric"),
   (["phone", "tel", "mobile", "landline"], "phone"),
   (["date", "day", "month", "year"], "date"),
   (["name", "first", "last", "family"], "text"),
   (["address", "street", "city"], "address")]

/-- claimInferFieldType restates the claim: the first keyword set (in the
fixed priority order) containing a case-insensitive substring of the field
name decides the type, defaulting to unknown. -/
def claimInferFieldType (n : String) : String :=
  ((claimKeywordTable.find? fun e => kwAny e.1 (lowerS n)).map Prod.snd).getD "unknown"

/-- C9 (confirmed): field-type inference is exactly the first-match-wins
scan of the priority-ordered keyword table, and the three examples of the
claim evaluate as stated. -/
theorem infer_field_type_priority :
    (∀ n, infer_field_type n = claimInferFieldType n) ∧
    infer_field_type "mobilePhone" = "phone" ∧
    infer_field_type "lastName" = "text" ∧
    infer_field_type "unknownXyz" = "unknown" := by
  refine ⟨fun n => ?_, by decide, by decide, by decide⟩
  unfold infer_field_type claimInferFieldType claimKeywordTable
  cases h1 : kwAny ["id", "number", "num", "code"] (lowerS n) <;>
    cases h2 : kwAny ["phone", "tel", "mobile", "landline"] (lowerS n) <;>
      cases h3 : kwAny ["date", "day", "month", "year"] (lowerS n) <;>
        cases h4 : kwAny ["name", "first", "last", "family"] (lowerS n) <;>
          cases h5 : kwAny ["address", "street", "city"] (lowerS n) <;>
            simp_all [List.find?]

end OCRFormExtraction

namespace OCRFormExtraction

/-! ## Date validation (validation.py, validate_date) -/

/-- pyUnderscoreDigits checks a digit body in which single underscores may
separate digits, as accepted by Python int(). -/
def pyUnderscoreDigits : List Char → Bool
  | [] => true
  | '_' :: c :: rest => c.isDigit && pyUnderscoreDigits (c :: rest)
  | c :: rest => c.isDigit && pyUnderscoreDigits rest

/-- pyDigitsVal reads the decimal value of a digit body, skipping
underscores. -/
def pyDigitsVal (cs : List Char) : Nat :=
  (cs.filter (· ≠ '_')).foldl (fun a c => 10 * a + (c.toNat - 48)) 0

/-- pyNatDigits parses a nonempty digit body that starts with a digit. -/
def pyNatDigits (cs : List Char) : Option Nat :=
  match cs with
  | [] => none
  | c :: _ => if c.isDigit && pyUnderscoreDigits cs then some (pyDigitsVal cs) else none

/-- pyInt models Python int(s) on ASCII strings: optional surrounding
whitespace, an optional sign, then digits optionally separated by single
underscores; anything else raises ValueError, modelled as none. -/
def pyInt (s : String) : Option Int :=
  match (trimS s).data with
  | '+' :: rest => (pyNatDigits rest).map fun n => (n : Int)
  | '-' :: rest => (pyNatDigits rest).map fun n => -(n : Int)
  | cs => (pyNatDigits cs).map fun n => (n : Int)

/-- isLeapYear follows the Gregorian rule used by Python datetime. -/
def isLeapYear (y : Int) : Bool :=
  (y % 4 == 0 && y % 100 != 0) || y % 400 == 0

/-- daysInMonth gives the number of days of month m in year y. -/
def daysInMonth (y m : Int) : Int :=
  if m = 2 then (if isLeapYear y then 29 else 28)
  else if m = 4 || m = 6 || m = 9 || m = 11 then 30
  else 31

/-- datetimeOk models success of the Python datetime(year, month, day)
constructor: year within MINYEAR 1 and MAXYEAR 9999, month 1..12, day
from 1 to the length of the month. -/
def datetimeOk (y m d : Int) : Bool :=
  decide (1 ≤ y) && decide (y ≤ 9999) && decide (1 ≤ m) && decide (m ≤ 12) &&
    decide (1 ≤ d) && decide (d ≤ daysInMonth y m)

/-- DateDict models the date_dict argument of validate_date: a dict whose
day, month and year entries are strings when present. -/
structure DateDict where
  day : Option String
  month : Option String
  year : Option String

/-- truthyOptStr models Python truthiness of date_dict.get(k): a missing
key gives None (falsy) and an empty string is falsy. -/
def truthyOptStr : Option String → Bool
  | none => false
  | some s => !(s == "")

/-- validate_date models ExtractionValidator.validate_date.  An incomplete
date is accepted; otherwise the components are parsed with int() in the
evaluation order year, month, day, and the datetime constructor checks are
applied in its internal order (year range, month range, day range); any
ValueError becomes (false, reason).  The outer try/except of the source
cannot fire for a dict of strings, so the model is a total function. -/
def validate_date (dd : DateDict) : Bool × String :=
  if !(truthyOptStr dd.day && truthyOptStr dd.month && truthyOptStr dd.year) then
    (true, "")
  else
    match pyInt (dd.year.getD "") with
    | none => (false, "Invalid date format: invalid literal for int with base 10")
    | some y =>
      match pyInt (dd.month.getD "") with
      | none => (false, "Invalid date format: invalid literal for int with base 10")
      | some m =>
        match pyInt (dd.day.getD "") with
        | none => (false, "Invalid date format: invalid literal for int with base 10")
        | some d =>
          if !(decide (1 ≤ y) && decide (y ≤ 9999)) then
            (false, "Invalid date format: year is out of range")
          else if !(decide (1 ≤ m) && decide (m ≤ 12)) then
            (false, "Invalid date format: month must be in 1..12")
          else if !(decide (1 ≤ d) && decide (d ≤ daysInMonth y m)) then
            (false, "Invalid date format: day is out of range for month")
          else (true, "")

/-- C5 (confirmed): validate_date accepts any date with a missing or empty
component; when all three components are present it returns (true, "")
exactly when the int()-parsed components build a valid calendar date and
otherwise returns false with a nonempty reason; the day 31, month 02,
year 2020 example is rejected with a reason; and the function is a total
function of its input, so no exception reaches the caller. -/
theorem validate_date_spec :
    (∀ dd : DateDict,
        (truthyOptStr dd.day && truthyOptStr dd.month && truthyOptStr dd.year) = false →
        validate_date dd = (true, "")) ∧
    (∀ dd : DateDict,
        (truthyOptStr dd.day && truthyOptStr dd.month && truthyOptStr dd.year) = true →
        (((validate_date dd).1 = true) ↔
          ∃ y m d, pyInt (dd.year.getD "") = some y ∧ pyInt (dd.month.getD "") = some m ∧
            pyInt (dd.day.getD "") = some d ∧ datetimeOk y m d = true) ∧
        ((validate_date dd).1 = false → (validate_date dd).2 ≠ "")) ∧
    ((validate_date ⟨some "31", some "02", some "2020"⟩).1 = false ∧
      (validate_date ⟨some "31", some "02", some "2020"⟩).2 =
        "Invalid date format: day is out of range for month") ∧
    validate_date ⟨some "", some "", some ""⟩ = (true, "") := by
  refine ⟨fun dd h => ?_, fun dd h => ?_, by decide, by decide⟩
  · unfold validate_date
    simp [h]
  · unfold validate_date
    rw [h]
    cases hy : pyInt (dd.year.getD "") with
    | none => simp [hy]
    | some y =>
      cases hm : pyInt (dd.month.getD "") with
      | none => simp [hy, hm]
      | some m =>
        cases hd : pyInt (dd.day.getD "") with
        | none => simp [hy, hm, hd]
        | some d =>
          simp only [hy, hm, hd, Bool.not_true, Bool.not_eq_true']
          split_ifs with g1 g2 g3 <;>
            simp_all [datetimeOk, Bool.and_eq_true, decide_eq_true_eq]

end OCRFormExtraction

namespace OCRFormExtraction

/-- Witness for validate_date_spec: both hypothesised parts applied at
concrete date dicts. -/
theorem validate_date_spec_witness :
    validate_date ⟨some "", none, some "2020"⟩ = (true, "") ∧
    (((validate_date ⟨some "5", some "3", some "1990"⟩).1 = true) ↔
      ∃ y m d, pyInt ((some "1990").getD "") = some y ∧
        pyInt ((some "3").getD "") = some m ∧
        pyInt ((some "5").getD "") = some d ∧ datetimeOk y m d = true) := by
  exact ⟨validate_date_spec.1 ⟨some "", none, some "2020"⟩ (by decide),
    (validate_date_spec.2.1 ⟨some "5", some "3", some "1990"⟩ (by decide)).1⟩

/-! ## Bounding-box extraction (ocr.py, _extract_bounding_box)

The polygon argument is a Python list whose elements the source inspects
dynamically: point objects with x and y attributes, bare numbers, and
2-element lists or tuples are recognised; anything else makes an attribute
access, an indexing, a mixed-type min/max, or a mixed-type subtraction
raise, and the surrounding try/except returns the default box, so the
model is a total function. -/

/-- Box models the bounding-box dict {x, y, width, height}. -/
structure Box where
  x : ℚ
  y : ℚ
  width : ℚ
  height : ℚ
deriving DecidableEq

/-- PolyElem models one element of the polygon list. -/
inductive PolyElem where
  | point : ℚ → ℚ → PolyElem
  | num : ℚ → PolyElem
  | pair : List ℚ → PolyElem
  | other : PolyElem
deriving DecidableEq

/-- default_box is the fallback box of the source. -/
def default_box : Box := ⟨0, 0, 100, 20⟩

/-- qmin models Python min() on a nonempty list of numbers. -/
def qmin : List ℚ → ℚ
  | [] => 0
  | x :: xs => xs.foldl min x

/-- qmax models Python max() on a nonempty list of numbers. -/
def qmax : List ℚ → ℚ
  | [] => 0
  | x :: xs => xs.foldl max x

/-- boxFrom builds the axis-aligned box spanning the coordinate lists, as
the source computes it from min and max. -/
def boxFrom (xs ys : List ℚ) : Box :=
  ⟨qmin xs, qmin ys, qmax xs - qmin xs, qmax ys - qmin ys⟩

/-- pointCoords succeeds when every element is a point object; any other
element makes the attribute access p.x raise in the source. -/
def pointCoords : List PolyElem → Option (List ℚ × List ℚ)
  | [] => some ([], [])
  | .point x y :: rest => (pointCoords rest).map fun p => (x :: p.1, y :: p.2)
  | _ => none

/-- numCoords succeeds when every element is a number; any other element
makes the min/max comparison or the width subtraction raise. -/
def numCoords : List PolyElem → Option (List ℚ)
  | [] => some []
  | .num v :: rest => (numCoords rest).map fun vs => v :: vs
  | _ => none

/-- pairCoords succeeds when every element is a pair carrying at least two
numbers; indexing p[0] or p[1] raises otherwise. -/
def pairCoords : List PolyElem → Option (List ℚ × List ℚ)
  | [] => some ([], [])
  | .pair (x :: y :: _) :: rest => (pairCoords rest).map fun p => (x :: p.1, y :: p.2)
  | _ => none

/-- evens takes the elements at even positions (polygon[0], polygon[2], ...). -/
def evens : List ℚ → List ℚ
  | [] => []
  | [x] => [x]
  | x :: _ :: rest => x :: evens rest

/-- odds takes the elements at odd positions (polygon[1], polygon[3], ...). -/
def odds : List ℚ → List ℚ
  | [] => []
  | [_] => []
  | _ :: y :: rest => y :: odds rest

/-- extract_bounding_box models DocumentIntelligenceExtractor._extract_bounding_box:
shape detection by the first element, default box on the empty polygon, on
an odd flat list, on an unrecognised first element, and on any raising
path; min/max box otherwise. -/
def extract_bounding_box (polygon : List PolyElem) : Box :=
  match polygon with
  | [] => default_box
  | e0 :: _ =>
    match e0 with
    | .point _ _ =>
      match pointCoords polygon with
      | some p => boxFrom p.1 p.2
      | none => default_box
    | .num _ =>
      if polygon.length % 2 == 0 then
        match numCoords polygon with
        | some vs => boxFrom (evens vs) (odds vs)
        | none => default_box
      else default_box
    | .pair l =>
      if l.length == 2 then
        match pairCoords polygon with
        | some p => boxFrom p.1 p.2
        | none => default_box
      else default_box
    | .other => default_box

lemma foldl_min_le (tl : List ℚ) : ∀ x : ℚ, tl.foldl min x ≤ x ∧ ∀ a ∈ tl, tl.foldl min x ≤ a := by
  induction tl with
  | nil => intro x; exact ⟨le_refl x, by simp⟩
  | cons b tl ih =>
    intro x
    obtain ⟨h1, h2⟩ := ih (min x b)
    refine ⟨h1.trans (min_le_left x b), ?_⟩
    intro a ha
    rcases List.mem_cons.mp ha with rfl | ha
    · exact h1.trans (min_le_right x a)
    · exact h2 a ha

lemma foldl_min_mem (tl : List ℚ) : ∀ x : ℚ, tl.foldl min x = x ∨ tl.foldl min x ∈ tl := by
  induction tl with
  | nil => intro x; exact Or.inl rfl
  | cons b tl ih =>
    intro x
    rcases ih (min x b) with h | h
    · rcases min_choice x b with hc | hc
      · exact Or.inl (by rw [List.foldl_cons, h, hc])
      · exact Or.inr (by rw [List.foldl_cons, h, hc]; exact List.mem_cons_self b tl)
    · exact Or.inr (List.mem_cons_of_mem b h)

lemma foldl_max_le (tl : List ℚ) : ∀ x : ℚ, x ≤ tl.foldl max x ∧ ∀ a ∈ tl, a ≤ tl.foldl max x := by
  induction tl with
  | nil => intro x; exact ⟨le_refl x, by simp⟩
  | cons b tl ih =>
    intro x
    obtain ⟨h1, h2⟩ := ih (max x b)
    refine ⟨(le_max_left x b).trans h1, ?_⟩
    intro a ha
    rcases List.mem_cons.mp ha with rfl | ha
    · exact (le_max_right x a).trans h1
    · exact h2 a ha

lemma foldl_max_mem (tl : List ℚ) : ∀ x : ℚ, tl.foldl max x = x ∨ tl.foldl max x ∈ tl := by
  induction tl with
  | nil => intro x; exact Or.inl rfl
  | cons b tl ih =>
    intro x
    rcases ih (max x b) with h | h
    · rcases max_choice x b with hc | hc
      · exact Or.inl (by rw [List.foldl_cons, h, hc])
      · exact Or.inr (by rw [List.foldl_cons, h, hc]; exact List.mem_cons_self b tl)
    · exact Or.inr (List.mem_cons_of_mem b h)

lemma pointCoords_map (ps : List (ℚ × ℚ)) :
    pointCoords (ps.map fun p => PolyElem.point p.1 p.2) =
      some (ps.map Prod.fst, ps.map Prod.snd) := by
  induction ps with
  | nil => rfl
  | cons p tl ih => simp [pointCoords, ih]

lemma numCoords_map (l : List ℚ) : numCoords (l.map PolyElem.num) = some l := by
  induction l with
  | nil => rfl
  | cons v tl ih => simp [numCoords, ih]

lemma pairCoords_map (ps : List (ℚ × ℚ)) :
    pairCoords (ps.map fun p => PolyElem.pair [p.1, p.2]) =
      some (ps.map Prod.fst, ps.map Prod.snd) := by
  induction ps with
  | nil => rfl
  | cons p tl ih => simp [pairCoords, ih]

/-- C8 (confirmed): bounding-box extraction is a total function that
returns the default box on an empty polygon, an odd-length flat numeric
list, or an unrecognised first element, and returns the min/max spanning
box on the three well-formed shapes; qmin and qmax really are the minimum
and maximum of the coordinates. -/
theorem extract_bounding_box_spec :
    extract_bounding_box [] = default_box ∧
    (∀ l : List ℚ, l.length % 2 = 1 → extract_bounding_box (l.map PolyElem.num) = default_box) ∧
    (∀ rest : List PolyElem, extract_bounding_box (.other :: rest) = default_box) ∧
    (∀ ps : List (ℚ × ℚ), ps ≠ [] →
        extract_bounding_box (ps.map fun p => PolyElem.point p.1 p.2) =
          boxFrom (ps.map Prod.fst) (ps.map Prod.snd)) ∧
    (∀ l : List ℚ, l ≠ [] → l.length % 2 = 0 →
        extract_bounding_box (l.map PolyElem.num) = boxFrom (evens l) (odds l)) ∧
    (∀ ps : List (ℚ × ℚ), ps ≠ [] →
        extract_bounding_box (ps.map fun p => PolyElem.pair [p.1, p.2]) =
          boxFrom (ps.map Prod.fst) (ps.map Prod.snd)) ∧
    (∀ xs : List ℚ, xs ≠ [] →
        qmin xs ∈ xs ∧ (∀ a ∈ xs, qmin xs ≤ a) ∧ qmax xs ∈ xs ∧ ∀ a ∈ xs, a ≤ qmax xs) := by
  refine ⟨rfl, fun l h => ?_, fun rest => rfl, fun ps h => ?_, fun l h he => ?_, fun ps h => ?_,
    fun xs h => ?_⟩
  · cases l with
    | nil => simp at h
    | cons v tl =>
      simp only [List.map_cons, extract_bounding_box]
      have hc : ((PolyElem.num v :: List.map PolyElem.num tl).length % 2 == 0) = false := by
        have hl : (PolyElem.num v :: List.map PolyElem.num tl).length = (v :: tl).length := by
          simp
        rw [hl, h]
        decide
      rw [hc]
      simp
  · cases ps with
    | nil => simp at h
    | cons p tl =>
      simp only [List.map_cons, extract_bounding_box]
      have hpc := pointCoords_map (p :: tl)
      simp only [List.map_cons] at hpc
      rw [hpc]
  · cases l with
    | nil => simp at h
    | cons v tl =>
      simp only [List.map_cons, extract_bounding_box]
      have hc : ((PolyElem.num v :: List.map PolyElem.num tl).length % 2 == 0) = true := by
        have hl : (PolyElem.num v :: List.map PolyElem.num tl).length = (v :: tl).length := by
          simp
        rw [hl, he]
        decide
      rw [hc]
      have hnc := numCoords_map (v :: tl)
      simp only [List.map_cons] at hnc
      simp only [if_true]
      rw [hnc]
  · cases ps with
    | nil => simp at h
    | cons p tl =>
      simp only [List.map_cons, extract_bounding_box]
      have hpc := pairCoords_map (p :: tl)
      simp only [List.map_cons] at hpc
      rw [if_pos (by simp), hpc]
  · cases xs with
    | nil => simp at h
    | cons x tl =>
      refine ⟨?_, ?_, ?_, ?_⟩
      · show List.foldl min x tl ∈ x :: tl
        rcases foldl_min_mem tl x with hm | hm
        · rw [hm]; exact List.mem_cons_self x tl
        · exact List.mem_cons_of_mem x hm
      · intro a ha
        rcases List.mem_cons.mp ha with rfl | ha
        · exact (foldl_min_le tl a).1
        · exact (foldl_min_le tl x).2 a ha
      · show List.foldl max x tl ∈ x :: tl
        rcases foldl_max_mem tl x with hm | hm
        · rw [hm]; exact List.mem_cons_self x tl
        · exact List.mem_cons_of_mem x hm
      · intro a ha
        rcases List.mem_cons.mp ha with rfl | ha
        · exact (foldl_max_le tl a).1
        · exact (foldl_max_le tl x).2 a ha

/-- Witness for extract_bounding_box_spec: every hypothesised part applied
at a concrete polygon. -/
theorem extract_bounding_box_spec_witness :
    ([(1 : ℚ), 2, 3].length % 2 = 1 ∧
      extract_bounding_box ([(1 : ℚ), 2, 3].map PolyElem.num) = default_box) ∧
    extract_bounding_box ([((1 : ℚ), (5 : ℚ)), (3, 2)].map fun p => PolyElem.point p.1 p.2) =
      boxFrom [1, 3] [5, 2] ∧
    extract_bounding_box ([(0 : ℚ), 0, 4, 6].map PolyElem.num) = boxFrom (evens [0, 0, 4, 6]) (odds [0, 0, 4, 6]) ∧
    extract_bounding_box ([((1 : ℚ), (2 : ℚ)), (3, 4)].map fun p => PolyElem.pair [p.1, p.2]) =
      boxFrom [1, 3] [2, 4] ∧
    qmin [(3 : ℚ), 1] ∈ [(3 : ℚ), 1] := by
  refine ⟨⟨by decide, extract_bounding_box_spec.2.1 [1, 2, 3] (by decide)⟩,
    ?_, extract_bounding_box_spec.2.2.2.2.1 [0, 0, 4, 6] (by decide) (by decide), ?_,
    (extract_bounding_box_spec.2.2.2.2.2.2 [3, 1] (by decide)).1⟩
  · have := extract_bounding_box_spec.2.2.2.1 [((1 : ℚ), (5 : ℚ)), (3, 2)] (by decide)
    simpa using this
  · have := extract_bounding_box_spec.2.2.2.2.2.1 [((1 : ℚ), (2 : ℚ)), (3, 4)] (by decide)
    simpa using this

end OCRFormExtraction

namespace OCRFormExtraction

/-! ## OCR span validation (validation.py, validate_extraction)

Spans carry a text, a confidence and an optional bounding box; a missing
box models a span dict without the bounding_box key, so span.get with a
default of an empty dict yields the empty dict there. -/

/-- TSpan models one OCR text span dict. -/
structure TSpan where
  text : String
  confidence : ℚ
  bounding_box : Option Box

/-- ExtractionResult models the extraction_result dict consumed by
validate_extraction; the tables entry is modelled with the same element
shape as text spans. -/
structure ExtractionResult where
  text : List TSpan
  tables : List TSpan

/-- qmean models np.mean on a nonempty list of floats. -/
def qmean (l : List ℚ) : ℚ := l.sum / l.length

/-- calculate_overlap models ExtractionValidator._calculate_overlap:
intersection over union of two complete boxes, 0 when either box is
incomplete, disjoint, or the union has no area. -/
def calculate_overlap : Option Box → Option Box → ℚ
  | some b1, some b2 =>
    let xLeft := max b1.x b2.x
    let yTop := max b1.y b2.y
    let xRight := min (b1.x + b1.width) (b2.x + b2.width)
    let yBottom := min (b1.y + b1.height) (b2.y + b2.height)
    if xRight < xLeft ∨ yBottom < yTop then 0
    else
      let interArea := (xRight - xLeft) * (yBottom - yTop)
      let unionArea := b1.width * b1.height + b2.width * b2.height - interArea
      if 0 < unionArea then interArea / unionArea else 0
  | _, _ => 0

/-- bboxPyEq models the Python comparison element.get("bounding_box") ==
bbox, where the element side defaults to None and the bbox side was built
with a default of the empty dict: None never equals a dict, so the test
holds only for two present equal boxes. -/
def bboxPyEq : Option Box → Option Box → Bool
  | some b, some d => b == d
  | _, _ => false

/-- validate_spatial_coherence models
ExtractionValidator._validate_spatial_coherence with the 0.3 overlap
threshold of the source. -/
def validate_spatial_coherence (bbox : Option Box) (all_elements : List TSpan) : ℚ :=
  if all_elements.isEmpty then 1
  else
    let overlaps := (all_elements.filter fun e => !bboxPyEq e.bounding_box bbox).map
      fun e => calculate_overlap bbox e.bounding_box
    let avg_overlap := if overlaps.isEmpty then 0 else qmean overlaps
    1 - min (avg_overlap / (3 / 10)) 1

/-- OCRValidationSpan models one entry of validated_spans. -/
structure OCRValidationSpan where
  text : String
  confidence_valid : Bool
  spatial_score : ℚ

/-- OCRValidation models the dict returned by validate_extraction. -/
structure OCRValidation where
  validated_spans : List OCRValidationSpan
  global_confidence : ℚ
  average_confidence : ℚ
  spatial_confidence : ℚ

/-- min_confidence_threshold of ExtractionValidator. -/
def min_confidence_threshold : ℚ := 1 / 2

/-- validate_extraction models ExtractionValidator.validate_extraction.
The accumulation loop of the source iterates text_spans[:20] (the slice
written to limit logging), so the two averages are taken over at most the
first 20 spans, while validated_spans covers every span. -/
def validate_extraction (er : ExtractionResult) : OCRValidation :=
  let text_spans := er.text
  let looped := text_spans.take 20
  let validation_scores := looped.map fun s => s.confidence
  let spatial_validations := looped.map fun s =>
    validate_spatial_coherence s.bounding_box (text_spans ++ er.tables)
  let avg_confidence := if validation_scores.isEmpty then 0 else qmean validation_scores
  let spatial_confidence := if spatial_validations.isEmpty then 0 else qmean spatial_validations
  { validated_spans := text_spans.map fun s =>
      ⟨s.text, decide (min_confidence_threshold ≤ s.confidence),
        validate_spatial_coherence s.bounding_box text_spans⟩,
    global_confidence := (avg_confidence + spatial_confidence) / 2,
    average_confidence := avg_confidence,
    spatial_confidence := spatial_confidence }

/-- claimGlobalConfidence restates the claim: the equal-weight average of
the mean confidence over the text spans and the mean spatial-coherence
score over the text spans, each mean being 0 when there are no spans. -/
def claimGlobalConfidence (er : ExtractionResult) : ℚ :=
  let confs := er.text.map fun s => s.confidence
  let spats := er.text.map fun s =>
    validate_spatial_coherence s.bounding_box (er.text ++ er.tables)
  ((if confs.isEmpty then 0 else qmean confs) +
    (if spats.isEmpty then 0 else qmean spats)) / 2

/-- truncationExample: 21 spans, the first twenty with confidence 1 and
the last with confidence 0, no bounding boxes, no tables. -/
def truncationExample : ExtractionResult :=
  ⟨List.replicate 20 ⟨"seen", 1, none⟩ ++ [⟨"dropped", 0, none⟩], []⟩

lemma truncation_spans_bbox_none : ∀ s ∈ truncationExample.text, s.bounding_box = none := by
  intro s hs
  have h : truncationExample.text =
      List.replicate 20 (⟨"seen", 1, none⟩ : TSpan) ++ [⟨"dropped", 0, none⟩] := rfl
  rw [h] at hs
  rcases List.mem_append.mp hs with hm | hm
  · rw [List.eq_of_mem_replicate hm]
  · rw [List.mem_singleton.mp hm]

/-- A span set whose boxes are all absent has spatial coherence 1: every
pairwise overlap is 0. -/
lemma coherence_none_spans (spans : List TSpan)
    (h : ∀ s ∈ spans, s.bounding_box = none) (hne : spans ≠ []) :
    validate_spatial_coherence none spans = 1 := by
  have hfil : spans.filter (fun e => !bboxPyEq e.bounding_box none) = spans := by
    apply List.filter_eq_self.mpr
    intro e he
    rw [h e he]
    rfl
  have hsum : (spans.map fun e => calculate_overlap none e.bounding_box).sum = 0 := by
    apply List.sum_eq_zero
    intro x hx
    obtain ⟨e, he, rfl⟩ := List.mem_map.mp hx
    rfl
  unfold validate_spatial_coherence
  cases hsp : spans with
  | nil => exact absurd hsp hne
  | cons a l =>
    rw [← hsp, hfil]
    have hie : spans.isEmpty = false := by rw [hsp]; rfl
    have hie2 : (spans.map fun e => calculate_overlap none e.bounding_box).isEmpty = false := by
      rw [hsp]; rfl
    rw [hie]
    show (1 : ℚ) - min
        ((if (spans.map fun e => calculate_overlap none e.bounding_box).isEmpty = true then 0
          else qmean (spans.map fun e => calculate_overlap none e.bounding_box)) / (3 / 10)) 1 = 1
    rw [hie2]
    show (1 : ℚ) - min (qmean (spans.map fun e => calculate_overlap none e.bounding_box) / (3 / 10)) 1 = 1
    unfold qmean
    rw [hsum]
    norm_num

/-- C3 (code bug): on a 21-span input the source averages only the first
20 spans (its slice text_spans[:20] was introduced to limit logging, per
its comments, but also limits the accumulation), giving global confidence
1, while the mean over all spans prescribed by the claim gives 41/42; the
per-span booleans do follow the 0.5 threshold as claimed. -/
theorem validate_extraction_truncation :
    (validate_extraction truncationExample).global_confidence = 1 ∧
    claimGlobalConfidence truncationExample = 41 / 42 ∧
    (41 / 42 : ℚ) ≠ 1 ∧
    (validate_extraction truncationExample).validated_spans.map
        (fun s => s.confidence_valid) =
      List.replicate 20 true ++ [false] := by
  have htext : truncationExample.text =
      List.replicate 20 (⟨"seen", 1, none⟩ : TSpan) ++ [⟨"dropped", 0, none⟩] := rfl
  have hne : truncationExample.text ≠ [] := by rw [htext]; simp
  have hcoh : ∀ s ∈ truncationExample.text,
      validate_spatial_coherence s.bounding_box
        (truncationExample.text ++ truncationExample.tables) = 1 := by
    intro s hs
    rw [truncation_spans_bbox_none s hs,
      show truncationExample.tables = [] from rfl, List.append_nil]
    exact coherence_none_spans _ truncation_spans_bbox_none hne
  have htake : truncationExample.text.take 20 =
      List.replicate 20 (⟨"seen", 1, none⟩ : TSpan) := by
    rw [htext, List.take_left' (by simp)]
  have hscores : (truncationExample.text.take 20).map (fun s => s.confidence) =
      List.replicate 20 (1 : ℚ) := by
    rw [htake, List.map_replicate]
  have hspat : (truncationExample.text.take 20).map (fun s =>
      validate_spatial_coherence s.bounding_box
        (truncationExample.text ++ truncationExample.tables)) =
      List.replicate 20 (1 : ℚ) := by
    rw [htake, List.map_replicate]
    congr 1
    exact hcoh ⟨"seen", 1, none⟩
      (by rw [htext]
          exact List.mem_append_left _ (List.mem_replicate.mpr ⟨by norm_num, rfl⟩))
  have hrepne : (List.replicate 20 (1 : ℚ)).isEmpty = false := by simp
  have hq1 : qmean (List.replicate 20 (1 : ℚ)) = 1 := by
    unfold qmean
    simp [List.sum_replicate]
    norm_num
  refine ⟨?_, ?_, by norm_num, ?_⟩
  · show ((if ((truncationExample.text.take 20).map fun s => s.confidence).isEmpty then (0 : ℚ)
        else qmean ((truncationExample.text.take 20).map fun s => s.confidence)) +
        (if ((truncationExample.text.take 20).map fun s =>
            validate_spatial_coherence s.bounding_box
              (truncationExample.text ++ truncationExample.tables)).isEmpty then (0 : ℚ)
        else qmean ((truncationExample.text.take 20).map fun s =>
            validate_spatial_coherence s.bounding_box
              (truncationExample.text ++ truncationExample.tables)))) / 2 = 1
    rw [hscores, hspat, hrepne, hq1]
    norm_num
  · show ((if (truncationExample.text.map fun s => s.confidence).isEmpty then (0 : ℚ)
        else qmean (truncationExample.text.map fun s => s.confidence)) +
        (if (truncationExample.text.map fun s =>
            validate_spatial_coherence s.bounding_box
              (truncationExample.text ++ truncationExample.tables)).isEmpty then (0 : ℚ)
        else qmean (truncationExample.text.map fun s =>
            validate_spatial_coherence s.bounding_box
              (truncationExample.text ++ truncationExample.tables)))) / 2 = 41 / 42
    have hconfs : truncationExample.text.map (fun s => s.confidence) =
        List.replicate 20 (1 : ℚ) ++ [0] := by
      rw [htext, List.map_append, List.map_replicate]
      rfl
    have hspats : truncationExample.text.map (fun s =>
        validate_spatial_coherence s.bounding_box
          (truncationExample.text ++ truncationExample.tables)) =
        List.replicate 21 (1 : ℚ) := by
      rw [List.eq_replicate_iff]
      refine ⟨by rw [List.length_map, htext]; simp, ?_⟩
      intro b hb
      obtain ⟨s, hs, rfl⟩ := List.mem_map.mp hb
      exact hcoh s hs
    have hqc : qmean (List.replicate 20 (1 : ℚ) ++ [0]) = 20 / 21 := by
      unfold qmean
      simp [List.sum_replicate]
      norm_num
    have hqs : qmean (List.replicate 21 (1 : ℚ)) = 1 := by
      unfold qmean
      simp [List.sum_replicate]
      norm_num
    rw [hconfs, hspats, hqc, hqs]
    norm_num
  · show (truncationExample.text.map fun s =>
        (⟨s.text, decide (min_confidence_threshold ≤ s.confidence),
          validate_spatial_coherence s.bounding_box truncationExample.text⟩ :
            OCRValidationSpan)).map (fun s => s.confidence_valid) =
      List.replicate 20 true ++ [false]
    rw [List.map_map]
    show truncationExample.text.map (fun s => decide (min_confidence_threshold ≤ s.confidence)) =
      List.replicate 20 true ++ [false]
    rw [htext, List.map_append, List.map_replicate, List.map_cons, List.map_nil]
    show List.replicate 20 (decide (min_confidence_threshold ≤ (1 : ℚ))) ++
        [decide (min_confidence_threshold ≤ (0 : ℚ))] =
      List.replicate 20 true ++ [false]
    rw [show decide (min_confidence_threshold ≤ (1 : ℚ)) = true by
          norm_num [min_confidence_threshold],
        show decide (min_confidence_threshold ≤ (0 : ℚ)) = false by
          norm_num [min_confidence_threshold]]

end OCRFormExtraction

namespace OCRFormExtraction

/-! ## Structured data (validation.py, _flatten_dict and validate_extracted_data)

The structured extraction is a nested dict with string leaves (the fixed
schema of the external LLM step).  SVal models one value; a structured
document is an association list of entries. -/

/-- SVal models a structured-extraction value: a string leaf or a nested
dict. -/
inductive SVal where
  | str : String → SVal
  | dict : List (String × SVal) → SVal

/-- squoteC is the ASCII apostrophe used by the Python repr of strings. -/
def squoteC : Char := Char.ofNat 39

mutual

/-- reprSVal models the Python repr() rendering of a value (string
escaping is not modelled; only the shape and length of the rendering
matter to the validator, which tests emptiness and length of the lowered,
stripped text). -/
def reprSVal : SVal → String
  | .str s => String.mk (squoteC :: s.data ++ [squoteC])
  | .dict d => String.mk ('\x7b' :: (reprEntries d).data ++ ['\x7d'])

/-- reprEntries renders the comma-separated entries of a dict as Python
repr() does. -/
def reprEntries : List (String × SVal) → String
  | [] => ""
  | [(k, v)] => String.mk (squoteC :: k.data ++ [squoteC] ++ (": ").data ++ (reprSVal v).data)
  | (k, v) :: rest =>
    String.mk (squoteC :: k.data ++ [squoteC] ++ (": ").data ++ (reprSVal v).data ++
      (", ").data ++ (reprEntries rest).data)

end

/-- pyStr models Python str(value): a string is returned unchanged, a dict
is rendered with repr. -/
def pyStr : SVal → String
  | .str s => s
  | .dict d => reprSVal (.dict d)

/-- truthySVal models Python truthiness: nonempty strings and nonempty
dicts are truthy. -/
def truthySVal : SVal → Bool
  | .str s => !(s == "")
  | .dict d => !d.isEmpty

/-- flatten_dict models ExtractionValidator._flatten_dict: nested dicts
are flattened to dotted key paths, leaves are kept. -/
def flatten_dict : List (String × SVal) → String → List (String × String)
  | [], _ => []
  | (k, v) :: rest, parent =>
    let new_key := if parent = "" then k else parent ++ "." ++ k
    (match v with
     | .dict e => flatten_dict e new_key
     | .str s => [(new_key, s)]) ++ flatten_dict rest parent

/-- leafCountEntries counts the string leaves of a structured document;
the specification calls these the flattened leaf fields. -/
def leafCountEntries : List (String × SVal) → Nat
  | [] => 0
  | (_, .str _) :: rest => 1 + leafCountEntries rest
  | (_, .dict e) :: rest => leafCountEntries e + leafCountEntries rest

/-! ## OCR-consistency check (validation.py, _check_consistency_with_ocr) -/

/-- OCRSpanT models one OCR span as seen by validate_extracted_data: only
its text is read there. -/
structure OCRSpanT where
  text : String
deriving DecidableEq

/-- OCRDataT models the ocr_data dict of validate_extracted_data. -/
structure OCRDataT where
  text : List OCRSpanT
  average_confidence : ℚ

/-- ocrCorpus models the search corpus: the lowercased span texts joined
with single spaces. -/
def ocrCorpus (ocr : OCRDataT) : String :=
  String.intercalate " " (ocr.text.map fun s => lowerS s.text)

/-- sigTokens lists the significant tokens of a scalar value: whitespace
tokens of the lowered, stripped text that are longer than 3 characters. -/
def sigTokens (s : String) : List String :=
  (splitWs (trimS (lowerS s))).filter fun t => 3 < t.data.length

/-- nonEmptyComps lists the populated sub-components of a dict value, as
the source filters them (truthy value whose str().strip() is truthy). -/
def nonEmptyComps (entries : List (String × SVal)) : List (String × SVal) :=
  entries.filter fun kv => truthySVal kv.2 && !(trimS (pyStr kv.2) == "")

/-- ConsistencyReport records the advisory invention signals the source
writes to its log: scalar_invention is the SUSPICIOUS DATA log of the
scalar branch (no significant token found), dict_invention is the SUSPECT
DATA log of the dict branch (under half of the populated components
found).  The source returns None and only logs; the report reifies those
log events. -/
structure ConsistencyReport where
  scalar_invention : Bool
  dict_invention : Bool
deriving DecidableEq

/-- check_consistency_with_ocr models
ExtractionValidator._check_consistency_with_ocr.  Values whose rendered
text is empty or at most 3 characters long are skipped.  For a dict, the
populated components are searched verbatim in the corpus and the SUSPECT
flag holds when components_found / components_total < 0.5, written here as
2 * found < total; the nested date-coherence helper only logs inside its
own try/except and does not affect the report.  For a scalar, the
significant tokens are searched in the corpus and the SUSPICIOUS flag
holds when no significant token was found although at least one exists.
The type-substitution logging and the closest-match search only log. -/
def check_consistency_with_ocr (field_name : String) (value : SVal) (ocr : OCRDataT) :
    ConsistencyReport :=
  let value_str := trimS (lowerS (pyStr value))
  if value_str = "" ∨ value_str.data.length ≤ 3 then ⟨false, false⟩
  else
    let ocr_text := ocrCorpus ocr
    match value with
    | .dict entries =>
      let comps := nonEmptyComps entries
      let found := comps.filter fun kv =>
        strContains ocr_text (trimS (lowerS (pyStr kv.2)))
      ⟨false, decide (0 < comps.length) && decide (2 * found.length < comps.length)⟩
    | .str s =>
      let sig := sigTokens s
      let tokens_found := sig.filter fun t => strContains ocr_text t
      let tokens_not_found := sig.filter fun t => !(strContains ocr_text t)
      ⟨tokens_found.isEmpty && !tokens_not_found.isEmpty, false⟩

/-! ## Top-level validation of extracted data (validation.py,
validate_extracted_data) -/

/-- InvalidField models one entry of accuracy.invalid_fields. -/
structure InvalidField where
  field : String
  value : String
  reason : String
deriving DecidableEq

/-- Completeness models the completeness part of the validation result. -/
structure Completeness where
  filled_fields : Nat
  total_fields : Nat
  score : ℚ
  missing_required : List String
deriving DecidableEq

/-- Accuracy models the accuracy part of the validation result. -/
structure Accuracy where
  valid_format_fields : Nat
  total_fields : Nat
  score : ℚ
  invalid_fields : List InvalidField
deriving DecidableEq

/-- ValidationResult models the dict returned by validate_extracted_data. -/
structure ValidationResult where
  completeness : Completeness
  accuracy : Accuracy
  confidence_score : ℚ
deriving DecidableEq

/-- required_fields of ExtractionValidator. -/
def required_fields : List String := ["lastName", "firstName", "idNumber"]

/-- truthyTrim models the test value and str(value).strip() on a string
leaf. -/
def truthyTrim (v : String) : Bool := !(v == "") && !(trimS v == "")

/-- isConfidenceKey models the test that skips confidence metadata keys. -/
def isConfidenceKey (k : String) : Bool :=
  strContains k "confidences" || strContains k "confidence"

/-- lastComponent models key.split(".")[-1]. -/
def lastComponent (k : String) : String :=
  String.mk ((k.data.reverse.takeWhile fun c => c ≠ '.').reverse)

/-- accuracyStep folds one flattened field into the accuracy counters
(total, valid, invalid list) exactly as the loop of the source does; the
OCR-consistency check runs at this point in the source but only writes to
the log, so it does not appear in the state. -/
def accuracyStep (st : Nat × Nat × List InvalidField) (kv : String × String) :
    Nat × Nat × List InvalidField :=
  if isConfidenceKey kv.1 then st
  else if truthyTrim kv.2 then
    if validate_format (lastComponent kv.1) kv.2 then (st.1 + 1, st.2.1 + 1, st.2.2)
    else (st.1 + 1, st.2.1, st.2.2 ++ [⟨kv.1, kv.2, "Invalid format"⟩])
  else st

/-- validate_extracted_data models
ExtractionValidator.validate_extracted_data on a structured document with
string leaves: flatten, count filled fields, collect missing required
fields by suffix match, fold the accuracy counters over the non-empty
non-confidence fields, and build the scores with a zero default on empty
denominators. -/
def validate_extracted_data (structured_data : List (String × SVal)) (ocr_data : OCRDataT) :
    ValidationResult :=
  let flat_data := flatten_dict structured_data ""
  let total_fields := flat_data.length
  let filled_fields := (flat_data.filter fun kv => truthyTrim kv.2).length
  let missing_required := (required_fields.map fun field =>
    (flat_data.filter fun kv => endsWithS kv.1 field && !truthyTrim kv.2).map
      fun kv => kv.1).flatten
  let acc := flat_data.foldl accuracyStep (0, 0, [])
  { completeness :=
      { filled_fields := filled_fields
        total_fields := total_fields
        score := if 0 < total_fields then (filled_fields : ℚ) / total_fields else 0
        missing_required := missing_required }
    accuracy :=
      { valid_format_fields := acc.2.1
        total_fields := acc.1
        score := if 0 < acc.1 then (acc.2.1 : ℚ) / acc.1 else 0
        invalid_fields := acc.2.2 }
    confidence_score := ocr_data.average_confidence }

end OCRFormExtraction

namespace OCRFormExtraction

lemma splitWsAux_token_length (cs : List Char) :
    ∀ acc t, t ∈ splitWsAux acc cs → t.length ≤ acc.length + cs.length := by
  induction cs with
  | nil =>
    intro acc t ht
    unfold splitWsAux at ht
    by_cases h : acc.isEmpty = true
    · simp [h] at ht
    · rw [if_neg h] at ht
      rcases List.mem_singleton.mp ht with rfl
      simp
  | cons c rest ih =>
    intro acc t ht
    unfold splitWsAux at ht
    by_cases hw : c.isWhitespace = true
    · rw [if_pos hw] at ht
      by_cases he : acc.isEmpty = true
      · rw [if_pos he] at ht
        have h2 := ih [] t ht
        simp only [List.length_nil, Nat.zero_add] at h2
        simp only [List.length_cons]
        omega
      · rw [if_neg he] at ht
        rcases List.mem_cons.mp ht with rfl | hm
        · simp only [List.length_reverse, List.length_cons]
          omega
        · have h2 := ih [] t hm
          simp only [List.length_nil, Nat.zero_add] at h2
          simp only [List.length_cons]
          omega
    · rw [if_neg hw] at ht
      have h2 := ih (c :: acc) t ht
      simp only [List.length_cons] at h2 ⊢
      omega

lemma sigTokens_length_le (s : String) :
    ∀ t ∈ sigTokens s, t.data.length ≤ (trimS (lowerS s)).data.length := by
  intro t ht
  have hsp : t ∈ splitWs (trimS (lowerS s)) := (List.mem_filter.mp ht).1
  unfold splitWs at hsp
  obtain ⟨cs, hcs, rfl⟩ := List.mem_map.mp hsp
  have := splitWsAux_token_length (trimS (lowerS s)).data [] cs hcs
  simpa using this

lemma lowerS_length (s : String) : (lowerS s).data.length = s.data.length := by
  simp [lowerS]

lemma trimS_length_le (s : String) : (trimS s).data.length ≤ s.data.length := by
  show ((s.data.dropWhile Char.isWhitespace).reverse.dropWhile
      Char.isWhitespace).reverse.length ≤ s.data.length
  rw [List.length_reverse]
  calc ((s.data.dropWhile Char.isWhitespace).reverse.dropWhile Char.isWhitespace).length
      ≤ (s.data.dropWhile Char.isWhitespace).reverse.length :=
        (List.dropWhile_sublist _).length_le
    _ = (s.data.dropWhile Char.isWhitespace).length := List.length_reverse _
    _ ≤ s.data.length := (List.dropWhile_sublist _).length_le

lemma trimS_braced (mid : List Char) :
    trimS (String.mk ('\x7b' :: mid ++ ['\x7d'])) = String.mk ('\x7b' :: mid ++ ['\x7d']) := by
  show String.mk (((('\x7b' :: mid ++ ['\x7d']).dropWhile
      Char.isWhitespace).reverse.dropWhile Char.isWhitespace).reverse) = _
  have hrw1 : List.dropWhile Char.isWhitespace ('\x7b' :: mid ++ ['\x7d']) =
      '\x7b' :: mid ++ ['\x7d'] := List.dropWhile_cons_of_neg (by decide)
  rw [hrw1]
  rw [show ('\x7b' :: mid ++ ['\x7d']).reverse = '\x7d' :: (mid.reverse ++ ['\x7b']) from by
    simp]
  have hrw2 : List.dropWhile Char.isWhitespace ('\x7d' :: (mid.reverse ++ ['\x7b'])) =
      '\x7d' :: (mid.reverse ++ ['\x7b']) := List.dropWhile_cons_of_neg (by decide)
  rw [hrw2]
  congr 1
  simp

lemma reprSVal_dict_data (d : List (String × SVal)) :
    (reprSVal (.dict d)).data = '\x7b' :: (reprEntries d).data ++ ['\x7d'] := by
  rw [reprSVal]

lemma reprEntries_cons_length (k : String) (v : SVal) (rest : List (String × SVal)) :
    4 ≤ (reprEntries ((k, v) :: rest)).data.length := by
  cases rest with
  | nil =>
    rw [reprEntries]
    simp [List.length_append]
    omega
  | cons e rest2 =>
    rw [reprEntries]
    · simp [List.length_append]
      omega
    · simp

/-- johnOcr is the OCR data of the claim example: one span whose text is
John Smith. -/
def johnOcr : OCRDataT := ⟨[⟨"John Smith"⟩], 1⟩

/-- C4 (confirmed): the scalar branch of the OCR-consistency check flags
a suspected invention exactly when the value has significant tokens and
none occurs in the lowercased corpus; the dict branch flags a possible
invention exactly when fewer than half of the populated sub-components
occur verbatim in the corpus; the check is a total function, so it never
raises; and the two examples of the claim behave as stated. -/
theorem check_consistency_invention :
    (∀ fn s ocr, sigTokens s ≠ [] →
      ((check_consistency_with_ocr fn (.str s) ocr).scalar_invention = true ↔
        ∀ t ∈ sigTokens s, strContains (ocrCorpus ocr) t = false)) ∧
    (∀ fn entries ocr,
      (check_consistency_with_ocr fn (.dict entries) ocr).dict_invention = true ↔
        2 * ((nonEmptyComps entries).filter fun kv =>
              strContains (ocrCorpus ocr) (trimS (lowerS (pyStr kv.2)))).length <
          (nonEmptyComps entries).length) ∧
    check_consistency_with_ocr "firstName" (.str "John") johnOcr = ⟨false, false⟩ ∧
    check_consistency_with_ocr "firstName" (.str "Zyxqpr") johnOcr = ⟨true, false⟩ := by
  refine ⟨fun fn s ocr hsig => ?_, fun fn entries ocr => ?_, by decide, by decide⟩
  · obtain ⟨t, ht⟩ := List.exists_mem_of_ne_nil _ hsig
    have ht3 : 3 < t.data.length := by
      have h2 := (List.mem_filter.mp ht).2
      simpa using h2
    have hlen : 3 < (trimS (lowerS s)).data.length :=
      lt_of_lt_of_le ht3 (sigTokens_length_le s t ht)
    have hguard : ¬(trimS (lowerS (pyStr (SVal.str s))) = "" ∨
        (trimS (lowerS (pyStr (SVal.str s)))).data.length ≤ 3) := by
      show ¬(trimS (lowerS s) = "" ∨ (trimS (lowerS s)).data.length ≤ 3)
      rintro (h | h)
      · rw [h] at hlen
        simp at hlen
      · omega
    simp only [check_consistency_with_ocr, if_neg hguard]
    show ((((sigTokens s).filter fun t => strContains (ocrCorpus ocr) t).isEmpty &&
        !(((sigTokens s).filter fun t => !(strContains (ocrCorpus ocr) t)).isEmpty)) = true) ↔ _
    constructor
    · intro h
      rw [Bool.and_eq_true] at h
      obtain ⟨hfe, _⟩ := h
      intro u hu
      have hnil : (sigTokens s).filter (fun t => strContains (ocrCorpus ocr) t) = [] :=
        List.isEmpty_iff.mp hfe
      have h2 := List.filter_eq_nil_iff.mp hnil u hu
      simpa using h2
    · intro hall
      have hfe : (sigTokens s).filter (fun t => strContains (ocrCorpus ocr) t) = [] :=
        List.filter_eq_nil_iff.mpr fun a ha => by rw [hall a ha]; simp
      have hnf : (sigTokens s).filter (fun t => !(strContains (ocrCorpus ocr) t)) =
          sigTokens s :=
        List.filter_eq_self.mpr fun a ha => by rw [hall a ha]; rfl
      rw [hfe, hnf]
      cases hst : sigTokens s with
      | nil => exact absurd hst hsig
      | cons a l => rfl
  · cases entries with
    | nil =>
      have hg : trimS (lowerS (pyStr (SVal.dict []))) = "" ∨
          (trimS (lowerS (pyStr (SVal.dict [])))).data.length ≤ 3 := by
        right
        calc (trimS (lowerS (pyStr (SVal.dict [])))).data.length
            ≤ (lowerS (pyStr (SVal.dict []))).data.length := trimS_length_le _
          _ = (pyStr (SVal.dict [])).data.length := lowerS_length _
          _ ≤ 3 := by
              show (reprSVal (.dict [])).data.length ≤ 3
              rw [reprSVal_dict_data, reprEntries]
              decide
      simp only [check_consistency_with_ocr, if_pos hg]
      simp [nonEmptyComps]
    | cons e rest =>
      obtain ⟨k, v⟩ := e
      have hlow : (lowerS (pyStr (SVal.dict ((k, v) :: rest)))).data =
          '\x7b' :: ((reprEntries ((k, v) :: rest)).data.map Char.toLower) ++ ['\x7d'] := by
        show (pyStr (SVal.dict ((k, v) :: rest))).data.map Char.toLower = _
        rw [show pyStr (SVal.dict ((k, v) :: rest)) = reprSVal (.dict ((k, v) :: rest)) from rfl,
          reprSVal_dict_data]
        simp [show Char.toLower '\x7b' = '\x7b' from by decide,
          show Char.toLower '\x7d' = '\x7d' from by decide]
      have hmk : lowerS (pyStr (SVal.dict ((k, v) :: rest))) =
          String.mk ('\x7b' :: ((reprEntries ((k, v) :: rest)).data.map Char.toLower) ++
            ['\x7d']) := by
        have hself : lowerS (pyStr (SVal.dict ((k, v) :: rest))) =
            String.mk ((lowerS (pyStr (SVal.dict ((k, v) :: rest)))).data) := rfl
        rw [hself, hlow]
      have htrim : trimS (lowerS (pyStr (SVal.dict ((k, v) :: rest)))) =
          lowerS (pyStr (SVal.dict ((k, v) :: rest))) := by
        rw [hmk, trimS_braced]
      have hlen : 3 < (trimS (lowerS (pyStr (SVal.dict ((k, v) :: rest))))).data.length := by
        rw [htrim, hlow]
        simp only [List.length_cons, List.length_append, List.length_map, List.length_nil]
        have h4 := reprEntries_cons_length k v rest
        omega
      have hguard : ¬(trimS (lowerS (pyStr (SVal.dict ((k, v) :: rest)))) = "" ∨
          (trimS (lowerS (pyStr (SVal.dict ((k, v) :: rest))))).data.length ≤ 3) := by
        rintro (h | h)
        · rw [h] at hlen
          simp at hlen
        · omega
      simp only [check_consistency_with_ocr, if_neg hguard]
      show ((decide (0 < (nonEmptyComps ((k, v) :: rest)).length) &&
          decide (2 * ((nonEmptyComps ((k, v) :: rest)).filter fun kv =>
            strContains (ocrCorpus ocr) (trimS (lowerS (pyStr kv.2)))).length <
              (nonEmptyComps ((k, v) :: rest)).length)) = true) ↔ _
      constructor
      · intro h
        rw [Bool.and_eq_true] at h
        exact of_decide_eq_true h.2
      · intro h
        rw [Bool.and_eq_true]
        exact ⟨decide_eq_true (by omega), decide_eq_true h⟩

/-- Witness for check_consistency_invention: the hypothesised scalar part
applied at the Zyxqpr example of the claim. -/
theorem check_consistency_invention_witness :
    (check_consistency_with_ocr "firstName" (.str "Zyxqpr") johnOcr).scalar_invention = true ↔
      ∀ t ∈ sigTokens "Zyxqpr", strContains (ocrCorpus johnOcr) t = false :=
  check_consistency_invention.1 "firstName" "Zyxqpr" johnOcr (by decide)

end OCRFormExtraction

namespace OCRFormExtraction

lemma truthyTrim_eq (v : String) : truthyTrim v = !(trimS v == "") := by
  unfold truthyTrim
  by_cases hv : v = ""
  · subst hv
    rfl
  · have h : (v == "") = false := beq_eq_false_iff_ne.mpr hv
    rw [h]
    rfl

lemma flatten_length : ∀ (d : List (String × SVal)) (parent : String),
    (flatten_dict d parent).length = leafCountEntries d := by
  intro d parent
  induction d, parent using flatten_dict.induct with
  | case1 p => simp [flatten_dict, leafCountEntries]
  | case2 k v rest parent ih1 ih2 ih3 =>
    cases v with
    | str s =>
      simp only [flatten_dict, leafCountEntries, List.length_append, List.length_cons,
        List.length_nil]
      omega
    | dict e =>
      have ih2a : (flatten_dict e (if parent = "" then k else parent ++ "." ++ k)).length =
          leafCountEntries e := ih2
      simp only [flatten_dict, leafCountEntries, List.length_append]
      omega

lemma accuracyStep_conf (st : Nat × Nat × List InvalidField) (kv : String × String)
    (h : isConfidenceKey kv.1 = true) : accuracyStep st kv = st := by
  unfold accuracyStep
  rw [if_pos h]

lemma accuracyStep_skip (st : Nat × Nat × List InvalidField) (kv : String × String)
    (h1 : isConfidenceKey kv.1 = false) (h2 : truthyTrim kv.2 = false) :
    accuracyStep st kv = st := by
  unfold accuracyStep
  rw [if_neg (by simp [h1]), if_neg (by simp [h2])]

lemma accuracyStep_valid (st : Nat × Nat × List InvalidField) (kv : String × String)
    (h1 : isConfidenceKey kv.1 = false) (h2 : truthyTrim kv.2 = true)
    (h3 : validate_format (lastComponent kv.1) kv.2 = true) :
    accuracyStep st kv = (st.1 + 1, st.2.1 + 1, st.2.2) := by
  unfold accuracyStep
  rw [if_neg (by simp [h1]), if_pos h2, if_pos h3]

lemma accuracyStep_invalid (st : Nat × Nat × List InvalidField) (kv : String × String)
    (h1 : isConfidenceKey kv.1 = false) (h2 : truthyTrim kv.2 = true)
    (h3 : validate_format (lastComponent kv.1) kv.2 = false) :
    accuracyStep st kv = (st.1 + 1, st.2.1, st.2.2 ++ [⟨kv.1, kv.2, "Invalid format"⟩]) := by
  unfold accuracyStep
  rw [if_neg (by simp [h1]), if_pos h2, if_neg (by simp [h3])]

lemma accuracy_foldl (l : List (String × String)) :
    ∀ t v inv,
      ((l.foldl accuracyStep (t, v, inv)).1 =
        t + (l.filter fun kv => !(isConfidenceKey kv.1) && truthyTrim kv.2).length) ∧
      ((l.foldl accuracyStep (t, v, inv)).2.1 =
        v + (l.filter fun kv =>
          (!(isConfidenceKey kv.1) && truthyTrim kv.2) &&
            validate_format (lastComponent kv.1) kv.2).length) := by
  induction l with
  | nil =>
    intro t v inv
    simp
  | cons kv rest ih =>
    intro t v inv
    rw [List.foldl_cons]
    cases h1 : isConfidenceKey kv.1 with
    | true =>
      rw [accuracyStep_conf _ _ h1]
      obtain ⟨ihl, ihr⟩ := ih t v inv
      constructor <;> simp [List.filter_cons, h1, ihl, ihr]
    | false =>
      cases h2 : truthyTrim kv.2 with
      | false =>
        rw [accuracyStep_skip _ _ h1 h2]
        obtain ⟨ihl, ihr⟩ := ih t v inv
        constructor <;> simp [List.filter_cons, h1, h2, ihl, ihr]
      | true =>
        cases h3 : validate_format (lastComponent kv.1) kv.2 with
        | true =>
          rw [accuracyStep_valid _ _ h1 h2 h3]
          obtain ⟨ihl, ihr⟩ := ih (t + 1) (v + 1) inv
          constructor <;> (simp [List.filter_cons, h1, h2, h3, ihl, ihr]; omega)
        | false =>
          rw [accuracyStep_invalid _ _ h1 h2 h3]
          obtain ⟨ihl, ihr⟩ := ih (t + 1) v (inv ++ [⟨kv.1, kv.2, "Invalid format"⟩])
          refine ⟨?_, ?_⟩
          · simp [List.filter_cons, h1, h2, ihl]
            omega
          · simp [List.filter_cons, h1, h2, h3, ihr]

lemma filter_and_length_le {α : Type} (l : List α) (p q : α → Bool) :
    (l.filter fun a => p a && q a).length ≤ (l.filter p).length := by
  induction l with
  | nil => simp
  | cons a rest ih =>
    rw [List.filter_cons, List.filter_cons]
    cases hp : p a <;> cases hq : q a <;> simp [hp, hq] <;> omega

/-- exampleTen: a structured document with ten leaf fields, seven of which
are non-empty after trimming. -/
def exampleTen : List (String × SVal) :=
  [("lastName", .str "Cohen"),
   ("firstName", .str "David"),
   ("idNumber", .str "123456789"),
   ("address", .dict [("street", .str "Main"), ("city", .str ""),
     ("postalCode", .str "12345")]),
   ("dateOfBirth", .dict [("day", .str "5"), ("month", .str "3"), ("year", .str "")]),
   ("mobilePhone", .str "   ")]

/-- exampleOcr: empty OCR data. -/
def exampleOcr : OCRDataT := ⟨[], 0⟩

/-- C6 (confirmed): the completeness counters of validate_extracted_data
are the number of flattened leaf fields and the number of leaves that are
non-empty after trimming, the score is their quotient with a zero default
on zero total, the ten-leaf seven-filled example scores exactly 7/10, and
the empty document scores 0 without any division failure. -/
theorem completeness_score_spec :
    (∀ (sd : List (String × SVal)) (ocr : OCRDataT),
      (validate_extracted_data sd ocr).completeness.total_fields = leafCountEntries sd ∧
      (validate_extracted_data sd ocr).completeness.filled_fields =
        ((flatten_dict sd "").filter fun kv => !(trimS kv.2 == "")).length ∧
      (validate_extracted_data sd ocr).completeness.score =
        (if 0 < leafCountEntries sd then
          ((((flatten_dict sd "").filter fun kv => !(trimS kv.2 == "")).length : ℚ) /
            (leafCountEntries sd : ℚ))
         else 0)) ∧
    (validate_extracted_data exampleTen exampleOcr).completeness.score = 7 / 10 ∧
    (validate_extracted_data [] exampleOcr).completeness.score = 0 := by
  have hfil : ∀ sd : List (String × SVal),
      ((flatten_dict sd "").filter fun kv => truthyTrim kv.2) =
        ((flatten_dict sd "").filter fun kv => !(trimS kv.2 == "")) := by
    intro sd
    apply List.filter_congr
    intro kv _
    exact truthyTrim_eq kv.2
  have hmain : ∀ (sd : List (String × SVal)) (ocr : OCRDataT),
      (validate_extracted_data sd ocr).completeness.total_fields = leafCountEntries sd ∧
      (validate_extracted_data sd ocr).completeness.filled_fields =
        ((flatten_dict sd "").filter fun kv => !(trimS kv.2 == "")).length ∧
      (validate_extracted_data sd ocr).completeness.score =
        (if 0 < leafCountEntries sd then
          ((((flatten_dict sd "").filter fun kv => !(trimS kv.2 == "")).length : ℚ) /
            (leafCountEntries sd : ℚ))
         else 0) := by
    intro sd ocr
    refine ⟨?_, ?_, ?_⟩
    · show (flatten_dict sd "").length = leafCountEntries sd
      exact flatten_length sd ""
    · show ((flatten_dict sd "").filter fun kv => truthyTrim kv.2).length = _
      rw [hfil]
    · show (if 0 < (flatten_dict sd "").length then
          ((((flatten_dict sd "").filter fun kv => truthyTrim kv.2).length : ℚ) /
            ((flatten_dict sd "").length : ℚ))
        else 0) = _
      rw [hfil, flatten_length]
  refine ⟨hmain, ?_, ?_⟩
  · rw [(hmain exampleTen exampleOcr).2.2]
    have h1 : leafCountEntries exampleTen = 10 := by
      simp [exampleTen, leafCountEntries]
    have hfd : flatten_dict exampleTen "" =
        [("lastName", "Cohen"), ("firstName", "David"), ("idNumber", "123456789"),
         ("address.street", "Main"), ("address.city", ""), ("address.postalCode", "12345"),
         ("dateOfBirth.day", "5"), ("dateOfBirth.month", "3"), ("dateOfBirth.year", ""),
         ("mobilePhone", "   ")] := by
      simp [exampleTen, flatten_dict]
    have h2 : ((flatten_dict exampleTen "").filter fun kv => !(trimS kv.2 == "")).length = 7 := by
      rw [hfd]
      decide
    rw [h1, h2]
    norm_num
  · rw [(hmain [] exampleOcr).2.2]
    simp [leafCountEntries]

/-- C7 (confirmed): validate_extracted_data keeps both scores inside
[0, 1], the filled-field count at most the total count, the valid-format
count at most the accuracy total, and the accuracy total equal to the
number of non-empty non-confidence fields. -/
theorem validation_result_invariants :
    ∀ (sd : List (String × SVal)) (ocr : OCRDataT),
      0 ≤ (validate_extracted_data sd ocr).completeness.score ∧
      (validate_extracted_data sd ocr).completeness.score ≤ 1 ∧
      0 ≤ (validate_extracted_data sd ocr).accuracy.score ∧
      (validate_extracted_data sd ocr).accuracy.score ≤ 1 ∧
      (validate_extracted_data sd ocr).completeness.filled_fields ≤
        (validate_extracted_data sd ocr).completeness.total_fields ∧
      (validate_extracted_data sd ocr).accuracy.valid_format_fields ≤
        (validate_extracted_data sd ocr).accuracy.total_fields ∧
      (validate_extracted_data sd ocr).accuracy.total_fields =
        ((flatten_dict sd "").filter fun kv =>
          !(isConfidenceKey kv.1) && truthyTrim kv.2).length := by
  intro sd ocr
  obtain ⟨hat, hav⟩ := accuracy_foldl (flatten_dict sd "") 0 0 []
  simp only [Nat.zero_add] at hat hav
  have hfle : ((flatten_dict sd "").filter fun kv => truthyTrim kv.2).length ≤
      (flatten_dict sd "").length := List.length_filter_le _ _
  have hvle : ((flatten_dict sd "").filter fun kv =>
      (!(isConfidenceKey kv.1) && truthyTrim kv.2) &&
        validate_format (lastComponent kv.1) kv.2).length ≤
      ((flatten_dict sd "").filter fun kv =>
        !(isConfidenceKey kv.1) && truthyTrim kv.2).length :=
    filter_and_length_le _ _ _
  refine ⟨?_, ?_, ?_, ?_, ?_, ?_, ?_⟩
  · show 0 ≤ (if 0 < (flatten_dict sd "").length then
        ((((flatten_dict sd "").filter fun kv => truthyTrim kv.2).length : ℚ) /
          ((flatten_dict sd "").length : ℚ)) else 0)
    split_ifs with h
    · positivity
    · exact le_refl 0
  · show (if 0 < (flatten_dict sd "").length then
        ((((flatten_dict sd "").filter fun kv => truthyTrim kv.2).length : ℚ) /
          ((flatten_dict sd "").length : ℚ)) else 0) ≤ 1
    split_ifs with h
    · rw [div_le_one (by exact_mod_cast h)]
      exact_mod_cast hfle
    · norm_num
  · show 0 ≤ (if 0 < ((flatten_dict sd "").foldl accuracyStep (0, 0, [])).1 then
        ((((flatten_dict sd "").foldl accuracyStep (0, 0, [])).2.1 : ℚ) /
          (((flatten_dict sd "").foldl accuracyStep (0, 0, [])).1 : ℚ)) else 0)
    split_ifs with h
    · positivity
    · exact le_refl 0
  · show (if 0 < ((flatten_dict sd "").foldl accuracyStep (0, 0, [])).1 then
        ((((flatten_dict sd "").foldl accuracyStep (0, 0, [])).2.1 : ℚ) /
          (((flatten_dict sd "").foldl accuracyStep (0, 0, [])).1 : ℚ)) else 0) ≤ 1
    split_ifs with h
    · rw [div_le_one (by exact_mod_cast h)]
      rw [hat, hav]
      exact_mod_cast hvle
    · norm_num
  · show ((flatten_dict sd "").filter fun kv => truthyTrim kv.2).length ≤
      (flatten_dict sd "").length
    exact hfle
  · show ((flatten_dict sd "").foldl accuracyStep (0, 0, [])).2.1 ≤
      ((flatten_dict sd "").foldl accuracyStep (0, 0, [])).1
    rw [hat, hav]
    exact hvle
  · exact hat

end OCRFormExtraction

namespace OCRFormExtraction

/-! ## Exception flow of validate_extracted_data (validation.py)

The source of validate_extracted_data contains no try/except of its own:
only validate_date and _check_date_coherence catch exceptions.  To settle
the error-handling claim the function is embedded once more over
dynamically typed values, with Except marking the operations that raise
in Python (attribute access on a non-dict, iteration over a
non-iterable). -/

/-- PyVal models a dynamically typed Python value. -/
inductive PyVal where
  | pstr : String → PyVal
  | pint : Int → PyVal
  | pdict : List (String × PyVal) → PyVal
  | plist : List PyVal → PyVal

/-- pyGet models d.get(k, dflt) on a dict body. -/
def pyGet (entries : List (String × PyVal)) (k : String) (dflt : PyVal) : PyVal :=
  match entries.find? fun kv => kv.1 == k with
  | some kv => kv.2
  | none => dflt

/-- truthyPy models Python truthiness. -/
def truthyPy : PyVal → Bool
  | .pstr s => !(s == "")
  | .pint n => !(n == 0)
  | .pdict d => !d.isEmpty
  | .plist l => !l.isEmpty

mutual

/-- pyStrP models str(value) on a dynamic value. -/
def pyStrP : PyVal → String
  | .pstr s => s
  | .pint n => toString n
  | .pdict d => String.mk ('\x7b' :: (pyReprEntries d).data ++ ['\x7d'])
  | .plist l => String.mk ('[' :: (pyReprList l).data ++ [']'])

/-- pyReprP models repr(value): strings are quoted. -/
def pyReprP : PyVal → String
  | .pstr s => String.mk (squoteC :: s.data ++ [squoteC])
  | .pint n => toString n
  | .pdict d => String.mk ('\x7b' :: (pyReprEntries d).data ++ ['\x7d'])
  | .plist l => String.mk ('[' :: (pyReprList l).data ++ [']'])

/-- pyReprEntries renders dict entries as repr does. -/
def pyReprEntries : List (String × PyVal) → String
  | [] => ""
  | [(k, v)] => String.mk (squoteC :: k.data ++ [squoteC] ++ (": ").data ++ (pyReprP v).data)
  | (k, v) :: rest =>
    String.mk (squoteC :: k.data ++ [squoteC] ++ (": ").data ++ (pyReprP v).data ++
      (", ").data ++ (pyReprEntries rest).data)

/-- pyReprList renders list elements as repr does. -/
def pyReprList : List PyVal → String
  | [] => ""
  | [v] => pyReprP v
  | v :: rest => String.mk ((pyReprP v).data ++ (", ").data ++ (pyReprList rest).data)

end

/-- flattenP models _flatten_dict over dynamic values: dict values recurse,
anything else is kept as a leaf. -/
def flattenP : List (String × PyVal) → String → List (String × PyVal)
  | [], _ => []
  | (k, v) :: rest, parent =>
    let new_key := if parent = "" then k else parent ++ "." ++ k
    (match v with
     | .pdict e => flattenP e new_key
     | w => [(new_key, w)]) ++ flattenP rest parent

/-- spanTextE models span.get("text", "").lower() on one element of the
OCR text list: a non-dict element raises AttributeError at .get, a
non-string text raises AttributeError at .lower. -/
def spanTextE : PyVal → Except String String
  | .pdict se =>
    match pyGet se "text" (.pstr "") with
    | .pstr t => .ok (lowerS t)
    | _ => .error "AttributeError: lower"
  | _ => .error "AttributeError: get"

/-- spanTextsE iterates spanTextE over the span list, stopping at the
first raise, as the Python list comprehension does. -/
def spanTextsE : List PyVal → Except String (List String)
  | [] => .ok []
  | sp :: rest => do
    let t ← spanTextE sp
    let ts ← spanTextsE rest
    pure (t :: ts)

/-- ocrTextE models the corpus construction
" ".join(span.get("text", "").lower() for span in ocr_data.get("text", [])).
Iterating a non-list raises unless it is an empty string or empty dict,
whose iteration yields nothing. -/
def ocrTextE (odEntries : List (String × PyVal)) : Except String String :=
  match pyGet odEntries "text" (.plist []) with
  | .plist spans => do
    let texts ← spanTextsE spans
    pure (String.intercalate " " texts)
  | .pstr s => if s.data.isEmpty then .ok "" else .error "AttributeError: get"
  | .pdict d => if d.isEmpty then .ok "" else .error "AttributeError: get"
  | .pint _ => .error "TypeError: int object is not iterable"

/-- checkConsistencyE models the exception behaviour of
_check_consistency_with_ocr: after the early return for short values, the
first statement builds the OCR corpus, which is the only raising
operation; the remaining component searches, token searches,
type-substitution logging and the date-coherence helper (which has its
own try/except) are total and only log. -/
def checkConsistencyE (field_name : String) (value : PyVal)
    (odEntries : List (String × PyVal)) : Except String Unit :=
  let value_str := trimS (lowerS (pyStrP value))
  if value_str = "" ∨ value_str.data.length ≤ 3 then .ok ()
  else do
    let _corpus ← ocrTextE odEntries
    pure ()

/-- accuracyStepE models one iteration of the accuracy loop over dynamic
values: skip confidence keys and empty values, run the consistency check
(which may raise), then count the format validation of str(value). -/
def accuracyStepE (odEntries : List (String × PyVal)) (st : Nat × Nat × List InvalidField)
    (kv : String × PyVal) : Except String (Nat × Nat × List InvalidField) :=
  if isConfidenceKey kv.1 then pure st
  else if truthyPy kv.2 && !(trimS (pyStrP kv.2) == "") then do
    let _ ← checkConsistencyE (lastComponent kv.1) kv.2 odEntries
    if validate_format (lastComponent kv.1) (pyStrP kv.2) then
      pure (st.1 + 1, st.2.1 + 1, st.2.2)
    else
      pure (st.1 + 1, st.2.1, st.2.2 ++ [⟨kv.1, pyStrP kv.2, "Invalid format"⟩])
  else pure st

/-- accuracyFoldE runs the accuracy loop left to right, propagating the
first raise, as the Python for loop does. -/
def accuracyFoldE (odEntries : List (String × PyVal)) :
    Nat × Nat × List InvalidField → List (String × PyVal) →
    Except String (Nat × Nat × List InvalidField)
  | st, [] => .ok st
  | st, kv :: rest => do
    let st2 ← accuracyStepE odEntries st kv
    accuracyFoldE odEntries st2 rest

/-- confidenceScoreE models the eager argument evaluation of
validation_result["confidence"]["score"] * 100 in the summary logging of
the source (lines 360 and 406 of validation.py), run after the per-field
loop.  The stored score is ocr_data.get("average_confidence", 0) verbatim
(line 270, no raise); multiplying it by 100 raises TypeError when it is a
dict, while an int multiplies and a str or list value is Python sequence
repetition, which does not raise (logging swallows its own later
formatting failures).  Only the numeric case is reflected in the stored
rational; the claims never inspect a non-numeric score. -/
def confidenceScoreE (odEntries : List (String × PyVal)) : Except String ℚ :=
  match pyGet odEntries "average_confidence" (.pint 0) with
  | .pint n => .ok (n : ℚ)
  | .pstr _ => .ok 0
  | .plist _ => .ok 0
  | .pdict _ => .error "TypeError: unsupported operand type for mul"

/-- validate_extracted_dataE models validate_extracted_data over dynamic
values, with Except marking every raising operation: attribute access on
non-dict arguments, corpus construction inside the per-field loop, and
the eager confidence-score multiplication of the summary logging that
follows the loop.  The function has no exception handler: an error at
any of these points propagates to the caller. -/
def validate_extracted_dataE (structured_data ocr_data : PyVal) :
    Except String ValidationResult :=
  match ocr_data with
  | .pdict odE =>
    match structured_data with
    | .pdict sdE => do
      let flat := flattenP sdE ""
      let total := flat.length
      let filled := (flat.filter fun kv => truthyPy kv.2 && !(trimS (pyStrP kv.2) == "")).length
      let missing := (required_fields.map fun field =>
        (flat.filter fun kv => endsWithS kv.1 field &&
          !(truthyPy kv.2 && !(trimS (pyStrP kv.2) == ""))).map fun kv => kv.1).flatten
      let acc ← accuracyFoldE odE (0, 0, []) flat
      let conf ← confidenceScoreE odE
      pure ⟨⟨filled, total, (if 0 < total then (filled : ℚ) / total else 0), missing⟩,
        ⟨acc.2.1, acc.1, (if 0 < acc.1 then (acc.2.1 : ℚ) / acc.1 else 0), acc.2.2⟩,
        conf⟩
    | _ => .error "AttributeError: items"
  | _ => .error "AttributeError: get"

end OCRFormExtraction

namespace OCRFormExtraction

lemma bind_isOk {α β : Type} (e : Except String α) (f : α → Except String β)
    (he : e.isOk = true) (hf : ∀ a, (f a).isOk = true) : (e >>= f).isOk = true := by
  cases e with
  | ok a => exact hf a
  | error msg => cases he

lemma bind_error {α β : Type} (e : Except String α) (f : α → Except String β) (msg : String)
    (he : e = .error msg) : (e >>= f) = .error msg := by
  rw [he]
  rfl

lemma checkConsistencyE_ok (fn : String) (v : PyVal) (odE : List (String × PyVal))
    (h : (ocrTextE odE).isOk = true) : (checkConsistencyE fn v odE).isOk = true := by
  simp only [checkConsistencyE]
  split_ifs with hg
  · rfl
  · exact bind_isOk _ _ h fun a => rfl

lemma accuracyStepE_ok (odE : List (String × PyVal)) (st : Nat × Nat × List InvalidField)
    (kv : String × PyVal) (h : (ocrTextE odE).isOk = true) :
    (accuracyStepE odE st kv).isOk = true := by
  unfold accuracyStepE
  split_ifs with h1 h2 h3
  all_goals first
    | rfl
    | exact bind_isOk _ _ (checkConsistencyE_ok (lastComponent kv.1) kv.2 odE h) fun a => rfl

lemma accuracyFoldE_ok (odE : List (String × PyVal)) (h : (ocrTextE odE).isOk = true) :
    ∀ (l : List (String × PyVal)) (st : Nat × Nat × List InvalidField),
      (accuracyFoldE odE st l).isOk = true := by
  intro l
  induction l with
  | nil => intro st; rfl
  | cons kv rest ih =>
    intro st
    show ((accuracyStepE odE st kv) >>= fun st2 => accuracyFoldE odE st2 rest).isOk = true
    exact bind_isOk _ _ (accuracyStepE_ok odE st kv h) fun st2 => ih st2

/-- C2 (corrected), counterexample to the claim as stated: with the
structured field name set to a four-letter value and an OCR text list
holding an integer instead of a span dict, the per-field consistency
check raises AttributeError while building the corpus, and
validate_extracted_data has no handler, so the exception propagates to
the caller and aborts validation of all fields. -/
theorem validate_extracted_data_exception_cex :
    validate_extracted_dataE (.pdict [("name", .pstr "abcd")])
        (.pdict [("text", .plist [.pint 0])]) =
      .error "AttributeError: get" ∧
    (validate_extracted_dataE (.pdict [("name", .pstr "abcd")])
        (.pdict [("text", .plist [.pint 0])])).isOk = false := by
  have hps : pyStrP (PyVal.pstr "abcd") = "abcd" := by
    simp [pyStrP]
  have hocr : ocrTextE [("text", PyVal.plist [PyVal.pint 0])] =
      .error "AttributeError: get" := by
    rfl
  have hcheck : checkConsistencyE (lastComponent "name") (PyVal.pstr "abcd")
      [("text", PyVal.plist [PyVal.pint 0])] = .error "AttributeError: get" := by
    unfold checkConsistencyE
    rw [if_neg (by rw [hps]; decide)]
    exact bind_error _ _ _ hocr
  have hstep : accuracyStepE [("text", PyVal.plist [PyVal.pint 0])] (0, 0, [])
      ("name", PyVal.pstr "abcd") = .error "AttributeError: get" := by
    unfold accuracyStepE
    rw [if_neg (by decide), if_pos (by rw [hps]; decide)]
    exact bind_error _ _ _ hcheck
  have hflat : flattenP [("name", PyVal.pstr "abcd")] "" = [("name", PyVal.pstr "abcd")] := by
    simp [flattenP]
  have hfold : accuracyFoldE [("text", PyVal.plist [PyVal.pint 0])] (0, 0, [])
      [("name", PyVal.pstr "abcd")] = .error "AttributeError: get" := by
    show ((accuracyStepE [("text", PyVal.plist [PyVal.pint 0])] (0, 0, [])
        ("name", PyVal.pstr "abcd")) >>= fun st2 =>
          accuracyFoldE [("text", PyVal.plist [PyVal.pint 0])] st2 []) =
      .error "AttributeError: get"
    exact bind_error _ _ _ hstep
  have hmain : validate_extracted_dataE (.pdict [("name", .pstr "abcd")])
      (.pdict [("text", .plist [.pint 0])]) = .error "AttributeError: get" := by
    simp only [validate_extracted_dataE]
    rw [hflat]
    exact bind_error _ _ _ hfold
  exact ⟨hmain, by rw [hmain]; rfl⟩

/-- C2 (amended): validate_extracted_data itself contains no exception
handling (only validate_date and the date-coherence helper catch
exceptions internally); an exception from a malformed OCR span, or the
TypeError from the eager score * 100 of the summary logging on a
dict-valued average_confidence, propagates out.  Whenever both arguments
are dicts, building the OCR corpus succeeds (in particular when the OCR
text entry is a list of dicts with string texts) and the confidence-score
multiplication does not raise (average_confidence absent, numeric, or a
sequence), validation runs to completion over every field and returns a
result. -/
theorem validate_extracted_data_completes :
    ∀ (sdE odE : List (String × PyVal)),
      (ocrTextE odE).isOk = true →
      (confidenceScoreE odE).isOk = true →
      (validate_extracted_dataE (.pdict sdE) (.pdict odE)).isOk = true := by
  intro sdE odE h hc
  unfold validate_extracted_dataE
  exact bind_isOk _ _ (accuracyFoldE_ok odE h (flattenP sdE "") (0, 0, []))
    fun acc => bind_isOk _ _ hc fun conf => rfl

/-- Witness for validate_extracted_data_completes: a well-formed
structured document and OCR result validate without an exception. -/
theorem validate_extracted_data_completes_witness :
    (validate_extracted_dataE (.pdict [("firstName", .pstr "John")])
      (.pdict [("text", .plist [.pdict [("text", .pstr "John Smith")]])])).isOk = true :=
  validate_extracted_data_completes [("firstName", .pstr "John")]
    [("text", .plist [.pdict [("text", .pstr "John Smith")]])] (by decide) (by decide)

end OCRFormExtraction
